import Mathlib

/-!
The gDel3D Python binding: the `triangulate` adapter.

A shallow embedding of `python_bindings/src/python_bindings.cpp`.

* `double` values are only moved around by the adapter, so they are an
  arbitrary type `D`.
* `int` is 32 bits wide and signed, `ssize_t` is 64 bits wide and signed,
  `size_t` is 64 bits wide and unsigned, `sizeof(int) = 4`,
  `sizeof(double) = 8`.  Signed `int` arithmetic that leaves the range of
  `int` is undefined behaviour and is reported as such.
* Memory is read through total functions from offsets to contents.
* The native engine (`compute_delaunay_c`, `free_delaunay_output_c`) is not
  part of the file; it is a parameter of the embedding.
* A run of `triangulate` yields its outcome, the ordered list of the effects
  it performed on the native side, and the state of the local result
  descriptor when the function is left.
-/

namespace gDel3D

variable {D : Type}

/-! ## Machine integers -/

/-- Largest value of the 32-bit signed type `int`. -/
def INT_MAX : Int := 2147483647

/-- Smallest value of the 32-bit signed type `int`. -/
def INT_MIN : Int := -2147483648

/-- Number of values of the 64-bit unsigned type `size_t`. -/
def SIZE_MOD : Nat := 18446744073709551616

/-- Value of `sizeof(int)`. -/
def sizeof_int : Nat := 4

/-- Value of `sizeof(double)`. -/
def sizeof_double : Int := 8

/-- Result of an arithmetic operation carried out in the type `int`: the
mathematical result when it is representable, `none` (undefined behaviour)
when it is not. -/
def int_arith (r : Int) : Option Int :=
  if INT_MIN ≤ r ∧ r ≤ INT_MAX then some r else none

/-- Conversion of a 64-bit `ssize_t` value to `int`
(`int num_points = buf_info.shape[0];`): reduction modulo `2 ^ 32` into the
range of `int`. -/
def to_int (v : Int) : Int :=
  (v + 2147483648) % 4294967296 - 2147483648

/-- Conversion of an `int` to `size_t`: reduction modulo `2 ^ 64`. -/
def to_size_t (v : Int) : Nat :=
  (v % (SIZE_MOD : Int)).toNat

/-! ## Data -/

/-- The C struct `CPoint3`. -/
structure CPoint3 (D : Type) where
  x : D
  y : D
  z : D
deriving DecidableEq

/-- The C struct `CDelaunayOutput`.  The field `tetrahedra` is a pointer; it
is represented by the memory it points to, `tetrahedra k` being the `int`
stored `k` elements after the pointer. -/
structure CDelaunayOutput (D : Type) where
  tetrahedra : Nat → Int
  num_tetrahedra : Int
  total_time : D
  success : Int

/-- What `points.request()` returns for the argument of `triangulate`.
`ptr o` is the `double` stored `o` bytes after the base pointer; `shape` and
`strides` (strides in bytes) have one entry per dimension. -/
structure buffer_info (D : Type) where
  ptr : Int → D
  shape : List Int
  strides : List Int

/-- The field `ndim` of a `buffer_info`: the number of entries of `shape`. -/
def buffer_info.ndim {D : Type} (b : buffer_info D) : Int :=
  b.shape.length

/-- Element `[i, k]` of the array a two-dimensional `buffer_info` describes:
the `double` stored `i * strides[0] + k * strides[1]` bytes after the base
pointer. -/
def buffer_info.at {D : Type} (b : buffer_info D) (i k : Int) : D :=
  b.ptr (i * b.strides.getD 0 0 + k * b.strides.getD 1 0)

/-- A managed array of `int` (`py::array_t<int>`): shape, strides in bytes
and the elements of its buffer in memory order. -/
structure array_t where
  shape : List Int
  strides : List Int
  data : List Int
deriving DecidableEq

/-- Element `[r, c]` of a two-dimensional `array_t`: the element stored
`r * strides[0] + c * strides[1]` bytes after the start of its buffer. -/
def array_t.at (a : array_t) (r c : Nat) : Option Int :=
  a.data[((r : Int) * a.strides.getD 0 0 + (c : Int) * a.strides.getD 1 0).toNat / sizeof_int]?

/-- How a call of `triangulate` ends. -/
inductive Outcome (D : Type) where
  /-- Normal return of `std::make_tuple(tetrahedra_copy, total_time)`. -/
  | returned (tetrahedra_copy : array_t) (total_time : D)
  /-- A `std::runtime_error` thrown by the adapter with the given message. -/
  | runtime_error (what : String)
  /-- The `std::length_error` of `std::vector<CPoint3> c_points(num_points)`
  for a negative `num_points`. -/
  | length_error
  /-- The exception of the `py::array_t<int>` constructor for a negative
  dimension. -/
  | error_already_set
  /-- Undefined behaviour. -/
  | undefined
deriving DecidableEq

/-- Fields of the local `CDelaunayOutput output` read by the adapter;
`buffer` is the memory behind `output.tetrahedra`, read by `std::memcpy`. -/
inductive Field where
  | success
  | num_tetrahedra
  | tetrahedra
  | buffer
  | total_time
deriving DecidableEq

/-- Effects of `triangulate` on the native side, in the order it performs
them. -/
inductive Event (D : Type) where
  /-- Call `compute_delaunay_c(c_points.data(), num_points, &output)`. -/
  | compute_delaunay_c (c_points : List (CPoint3 D)) (num_points : Int)
  /-- Read of a field of `output`, or of the buffer it points to. -/
  | read (f : Field)
  /-- Call `free_delaunay_output_c(&output)`. -/
  | free_delaunay_output_c
deriving DecidableEq

/-- What surrounds the adapter: the two native functions declared at the
top of the file, and the contents `fresh` of newly allocated managed
memory before anything is written to it.  `compute_delaunay_c` yields its
return value and the state in which it leaves `output`;
`free_delaunay_output_c` yields the state in which it leaves `output`. -/
structure Env (D : Type) where
  compute_delaunay_c : List (CPoint3 D) → Int → Int × CDelaunayOutput D
  free_delaunay_output_c : CDelaunayOutput D → CDelaunayOutput D
  fresh : Nat → Int

/-- A run of `triangulate`: how it ends, the native effects in order, and the
state of the local `output` when the function is left (`none` when it was never
handed to the engine). -/
structure Run (D : Type) where
  outcome : Outcome D
  trace : List (Event D)
  output : Option (CDelaunayOutput D)

/-- Number of calls of `compute_delaunay_c` in a trace. -/
def compute_calls {D : Type} : List (Event D) → Nat
  | [] => 0
  | Event.compute_delaunay_c _ _ :: t => compute_calls t + 1
  | _ :: t => compute_calls t

/-- Number of calls of `free_delaunay_output_c` in a trace. -/
def free_calls {D : Type} : List (Event D) → Nat
  | [] => 0
  | Event.free_delaunay_output_c :: t => free_calls t + 1
  | _ :: t => free_calls t

/-! ## The adapter -/

/-- The body of the conversion loop for index `i`:
`c_points[i] = {ptr[i * 3 + 0], ptr[i * 3 + 1], ptr[i * 3 + 2]}` with the
index arithmetic in `int`; `ptr[j]` is the `double` at byte offset
`j * sizeof(double)`. -/
def read_point {D : Type} (ptr : Int → D) (i : Int) : Option (CPoint3 D) :=
  match int_arith (i * 3) with
  | none => none
  | some i3 =>
    match int_arith (i3 + 0), int_arith (i3 + 1), int_arith (i3 + 2) with
    | some o0, some o1, some o2 =>
      some ⟨ptr (o0 * sizeof_double), ptr (o1 * sizeof_double), ptr (o2 * sizeof_double)⟩
    | _, _, _ => none

/-- The loop `for (int i = 0; i < num_points; i++)`, started at index `i`
with `remaining` iterations to go. -/
def fill_points {D : Type} (ptr : Int → D) : (remaining : Nat) → (i : Int) → Option (List (CPoint3 D))
  | 0, _ => some []
  | n + 1, i =>
    match read_point ptr i with
    | none => none
    | some p =>
      match fill_points ptr n (i + 1) with
      | none => none
      | some ps => some (p :: ps)

/-- Result of the conversion step. -/
inductive Converted (D : Type) where
  | ok (c_points : List (CPoint3 D))
  | length_error
  | undefined
deriving DecidableEq

/-- Lines 39 to 44: `std::vector<CPoint3> c_points(num_points)`, which throws
for a negative count (the count becomes a `size_t` above `max_size()`), then
the conversion loop. -/
def convert {D : Type} (ptr : Int → D) (num_points : Int) : Converted D :=
  if num_points < 0 then Converted.length_error
  else
    match fill_points ptr num_points.toNat 0 with
    | none => Converted.undefined
    | some ps => Converted.ok ps

/-- The constructor `py::array_t<int>({rows, 4}, {4 * sizeof(int), sizeof(int)})`:
a new buffer of `rows * 4` elements with the contents `fresh`; `none` when
`rows` is negative. -/
def new_array (fresh : Nat → Int) (rows : Int) : Option array_t :=
  if rows < 0 then none
  else some ⟨[rows, 4], [4 * sizeof_int, sizeof_int], (List.range (rows.toNat * 4)).map fresh⟩

/-- The third argument of `std::memcpy`,
`output.num_tetrahedra * 4 * sizeof(int)`: the product `num_tetrahedra * 4` is
formed in `int`, converted to `size_t` and multiplied by `sizeof(int)` in
`size_t`.  `none` when the `int` product is not representable. -/
def memcpy_count (num_tetrahedra : Int) : Option Nat :=
  match int_arith (num_tetrahedra * 4) with
  | none => none
  | some n4 => some (to_size_t n4 * sizeof_int % SIZE_MOD)

/-- The call `std::memcpy(dst, src, n)` for buffers of `int`: the first
`n / sizeof(int)` elements of `dst` are replaced by those of `src`; `none`
when `dst` is shorter than that. -/
def memcpy (dst : List Int) (src : Nat → Int) (n : Nat) : Option (List Int) :=
  if n / sizeof_int ≤ dst.length then
    some ((List.range (n / sizeof_int)).map src ++ dst.drop (n / sizeof_int))
  else none

/-- Message of the exception thrown for a buffer of the wrong shape. -/
def invalid_shape : String := "Points array must be of shape (n, 3)"

/-- Message of the exception thrown when the engine reports failure. -/
def triangulation_failed : String := "Delaunay triangulation failed"

/-- Lines 54 to 69 of `triangulate`, entered once both success signals are
non-zero; `t` is the trace so far. -/
def copy_and_free {D : Type} (env : Env D) (output : CDelaunayOutput D)
    (t : List (Event D)) : Run D :=
  match new_array env.fresh output.num_tetrahedra with
  | none => ⟨Outcome.error_already_set, t ++ [Event.read Field.num_tetrahedra], some output⟩
  | some tetrahedra_copy =>
    match memcpy_count output.num_tetrahedra with
    | none =>
      ⟨Outcome.undefined,
        t ++ [Event.read Field.num_tetrahedra, Event.read Field.tetrahedra,
          Event.read Field.num_tetrahedra], some output⟩
    | some n =>
      match memcpy tetrahedra_copy.data output.tetrahedra n with
      | none =>
        ⟨Outcome.undefined,
          t ++ [Event.read Field.num_tetrahedra, Event.read Field.tetrahedra,
            Event.read Field.num_tetrahedra, Event.read Field.buffer], some output⟩
      | some data =>
        let total_time := output.total_time
        ⟨Outcome.returned { tetrahedra_copy with data := data } total_time,
          t ++ [Event.read Field.num_tetrahedra, Event.read Field.tetrahedra,
            Event.read Field.num_tetrahedra, Event.read Field.buffer,
            Event.read Field.total_time, Event.free_delaunay_output_c],
          some (env.free_delaunay_output_c output)⟩

/-- Lines 46 to 69 of `triangulate`: the engine call, the check of the two
success signals, then the copy and the release. -/
def call_engine {D : Type} (env : Env D) (c_points : List (CPoint3 D))
    (num_points : Int) : Run D :=
  let r := env.compute_delaunay_c c_points num_points
  let success := r.1
  let output := r.2
  let t := [Event.compute_delaunay_c c_points num_points]
  if success = 0 then
    ⟨Outcome.runtime_error triangulation_failed, t, some output⟩
  else if output.success = 0 then
    ⟨Outcome.runtime_error triangulation_failed, t ++ [Event.read Field.success],
      some output⟩
  else
    copy_and_free env output (t ++ [Event.read Field.success])

/-- The function `triangulate` of `python_bindings.cpp`.  In the shape test
`shape[1]` is only looked at when `ndim` is 2. -/
def triangulate {D : Type} (points : buffer_info D) (env : Env D) : Run D :=
  if points.ndim ≠ 2 ∨ points.shape[1]? ≠ some 3 then
    ⟨Outcome.runtime_error invalid_shape, [], none⟩
  else
    let num_points := to_int (points.shape.getD 0 0)
    match convert points.ptr num_points with
    | Converted.length_error => ⟨Outcome.length_error, [], none⟩
    | Converted.undefined => ⟨Outcome.undefined, [], none⟩
    | Converted.ok c_points => call_engine env c_points num_points

/-! ## What the adapter is expected to hand over -/

/-- The point made of the three doubles at flat offsets `3 * j`, `3 * j + 1`
and `3 * j + 2` (in units of one `double`) from the base pointer. -/
def flat_point (ptr : Int → D) (j : Int) : CPoint3 D :=
  ⟨ptr ((j * 3 + 0) * sizeof_double), ptr ((j * 3 + 1) * sizeof_double),
    ptr ((j * 3 + 2) * sizeof_double)⟩

/-- The points the conversion builds for a buffer of `n` rows: the flat
triples of the memory behind the base pointer, in order. -/
def flat_points (ptr : Int → D) (n : Int) : List (CPoint3 D) :=
  (List.range n.toNat).map (fun (k : Nat) => flat_point ptr (k : Int))

/-- The managed copy of what a result descriptor holds: shape
`(num_tetrahedra, 4)`, row-major strides, and the first `4 * num_tetrahedra`
elements of the native buffer. -/
def deep_copy (output : CDelaunayOutput D) : array_t :=
  ⟨[output.num_tetrahedra, 4], [16, 4],
    (List.range (output.num_tetrahedra.toNat * 4)).map output.tetrahedra⟩

/-- The events of lines 54 to 67 on the path that reaches the return. -/
def copy_events : List (Event D) :=
  [Event.read Field.num_tetrahedra, Event.read Field.tetrahedra,
    Event.read Field.num_tetrahedra, Event.read Field.buffer,
    Event.read Field.total_time, Event.free_delaunay_output_c]

/-! ## Concrete buffers and engines -/

/-- A memory holding the doubles `0, 1, 2, ...` in consecutive 8-byte slots
from the base pointer. -/
def demo_ptr : Int → Int := fun o => o / 8

/-- A descriptor reporting success, two tetrahedra `0 1 2 3` and `0 1 2 3`,
and the time `7`. -/
def demo_output : CDelaunayOutput Int := ⟨fun k => (k : Int) % 4, 2, 7, 1⟩

/-- An engine that answers every call with status 1 and `demo_output`, and
whose release zeroes the descriptor and its buffer. -/
def demo_env : Env Int :=
  ⟨fun _ _ => (1, demo_output),
    fun o => { o with tetrahedra := fun _ => 0, num_tetrahedra := 0 }, fun _ => -1⟩

/-- An engine that answers every call with call status 0. -/
def status_env : Env Int :=
  ⟨fun _ _ => (0, demo_output), fun o => o, fun _ => -1⟩

/-- An engine that answers every call with call status 1 and a descriptor
whose success flag is 0. -/
def flag_env : Env Int :=
  ⟨fun _ _ => (1, ⟨fun _ => 0, 0, 0, 0⟩), fun o => o, fun _ => -1⟩

/-- An engine that reports success and the count `-1`. -/
def negative_env : Env Int :=
  ⟨fun _ _ => (1, ⟨fun _ => 0, -1, 0, 1⟩), fun o => o, fun _ => -1⟩

/-- An engine that reports success and `536870912` tetrahedra. -/
def big_env : Env Int :=
  ⟨fun _ _ => (1, ⟨fun _ => 0, 536870912, 0, 1⟩), fun o => o, fun _ => -1⟩

/-- An engine that reports success and the single tetrahedron `5 5 5 5`. -/
def stray_env : Env Int :=
  ⟨fun _ _ => (1, ⟨fun _ => 5, 1, 0, 1⟩), fun o => o, fun _ => -1⟩

/-! ## Lemmas -/

theorem int_arith_eq_some {r v : Int} (h : int_arith r = some v) :
    v = r ∧ INT_MIN ≤ r ∧ r ≤ INT_MAX := by
  unfold int_arith at h
  split at h
  · rename_i hr
    exact ⟨(Option.some.inj h).symm, hr.1, hr.2⟩
  · cases h

theorem int_arith_of_range {r : Int} (h1 : INT_MIN ≤ r) (h2 : r ≤ INT_MAX) :
    int_arith r = some r := by
  unfold int_arith
  rw [if_pos ⟨h1, h2⟩]

theorem read_point_eq_some {ptr : Int → D} {i : Int} {p : CPoint3 D}
    (h : read_point ptr i = some p) : p = flat_point ptr i := by
  unfold read_point at h
  split at h
  · cases h
  · rename_i i3 h3
    obtain ⟨rfl, -, -⟩ := int_arith_eq_some h3
    split at h
    · rename_i o0 o1 o2 h0 h1 h2
      obtain ⟨rfl, -, -⟩ := int_arith_eq_some h0
      obtain ⟨rfl, -, -⟩ := int_arith_eq_some h1
      obtain ⟨rfl, -, -⟩ := int_arith_eq_some h2
      exact (Option.some.inj h).symm
    · cases h

theorem read_point_of_range (ptr : Int → D) {i : Int} (h0 : 0 ≤ i)
    (h1 : i * 3 + 2 ≤ INT_MAX) : read_point ptr i = some (flat_point ptr i) := by
  have hm : INT_MIN ≤ 0 := by decide
  unfold read_point
  rw [int_arith_of_range (by unfold INT_MIN; omega) (by omega)]
  simp only
  rw [int_arith_of_range (by unfold INT_MIN; omega) (by omega),
    int_arith_of_range (by unfold INT_MIN; omega) (by omega),
    int_arith_of_range (by unfold INT_MIN; omega) (by omega)]
  rfl

theorem fill_points_eq_some (ptr : Int → D) :
    ∀ (n : Nat) (i : Int) (ps : List (CPoint3 D)), fill_points ptr n i = some ps →
      ps = (List.range n).map (fun (k : Nat) => flat_point ptr (i + (k : Int)))
  | 0, i, ps, h => by
    simp [fill_points] at h
    simp [h]
  | n + 1, i, ps, h => by
    unfold fill_points at h
    split at h
    · cases h
    · rename_i p hp
      split at h
      · cases h
      · rename_i qs hq
        have ih := fill_points_eq_some ptr n (i + 1) qs hq
        have hp2 := read_point_eq_some hp
        cases h
        rw [List.range_succ_eq_map, List.map_cons, List.map_map, ih, hp2]
        congr 1
        · simp
        · apply List.map_congr_left
          intro k _
          simp only [Function.comp, Nat.succ_eq_add_one, Nat.cast_add, Nat.cast_one]
          congr 1
          ring

theorem fill_points_of_range (ptr : Int → D) :
    ∀ (n : Nat) (i : Int), 0 ≤ i → (i + (n : Int)) * 3 ≤ INT_MAX →
      fill_points ptr n i = some ((List.range n).map (fun (k : Nat) => flat_point ptr (i + (k : Int))))
  | 0, i, _, _ => by simp [fill_points]
  | n + 1, i, h0, h1 => by
    have hr := read_point_of_range ptr h0 (by push_cast at h1; omega)
    have ih := fill_points_of_range ptr n (i + 1) (by omega) (by push_cast at h1; omega)
    have hs : ∃ qs, fill_points ptr (n + 1) i = some qs := by
      unfold fill_points
      rw [hr, ih]
      exact ⟨_, rfl⟩
    obtain ⟨qs, hqs⟩ := hs
    rw [hqs, fill_points_eq_some ptr (n + 1) i qs hqs]

theorem to_int_of_range {v : Int} (h1 : INT_MIN ≤ v) (h2 : v ≤ INT_MAX) : to_int v = v := by
  unfold INT_MIN at h1
  unfold INT_MAX at h2
  unfold to_int
  omega

theorem convert_eq_ok {ptr : Int → D} {n : Int} {c : List (CPoint3 D)}
    (h : convert ptr n = Converted.ok c) : 0 ≤ n ∧ c = flat_points ptr n := by
  unfold convert at h
  split at h
  · cases h
  · rename_i hn
    split at h
    · cases h
    · rename_i ps hps
      cases h
      refine ⟨by omega, ?_⟩
      rw [fill_points_eq_some ptr _ _ _ hps]
      unfold flat_points
      apply List.map_congr_left
      intro k _
      simp

theorem convert_of_range (ptr : Int → D) {n : Int} (h0 : 0 ≤ n) (h1 : 3 * n ≤ INT_MAX) :
    convert ptr n = Converted.ok (flat_points ptr n) := by
  have hf := fill_points_of_range ptr n.toNat 0 (le_refl 0) (by
    rw [Int.toNat_of_nonneg h0]; omega)
  have hc : ∃ c, convert ptr n = Converted.ok c := by
    unfold convert
    rw [if_neg (by omega), hf]
    exact ⟨_, rfl⟩
  obtain ⟨c, hc⟩ := hc
  rw [hc, (convert_eq_ok hc).2]

theorem memcpy_count_of_range {m : Int} (h0 : 0 ≤ m) (h1 : 4 * m ≤ INT_MAX) :
    memcpy_count m = some (m.toNat * 4 * 4) := by
  unfold memcpy_count
  rw [int_arith_of_range (by unfold INT_MIN; omega) (by omega)]
  simp only [to_size_t, sizeof_int, SIZE_MOD, Option.some.injEq]
  unfold INT_MAX at h1
  omega

theorem memcpy_count_eq_some {m : Int} {n : Nat} (h : memcpy_count m = some n) :
    INT_MIN ≤ m * 4 ∧ m * 4 ≤ INT_MAX := by
  unfold memcpy_count at h
  split at h
  · cases h
  · rename_i n4 h4
    exact (int_arith_eq_some h4).2

theorem copy_and_free_of_range (env : Env D) (output : CDelaunayOutput D) (t : List (Event D))
    (h0 : 0 ≤ output.num_tetrahedra) (h1 : 4 * output.num_tetrahedra ≤ INT_MAX) :
    copy_and_free env output t =
      ⟨Outcome.returned (deep_copy output) output.total_time, t ++ copy_events,
        some (env.free_delaunay_output_c output)⟩ := by
  unfold copy_and_free new_array
  rw [if_neg (by omega)]
  simp only [memcpy_count_of_range h0 h1]
  unfold memcpy
  simp [sizeof_int, deep_copy, copy_events]

theorem copy_and_free_returned {env : Env D} {output : CDelaunayOutput D} {t : List (Event D)}
    {a : array_t} {tm : D} (h : (copy_and_free env output t).outcome = Outcome.returned a tm) :
    0 ≤ output.num_tetrahedra ∧ 4 * output.num_tetrahedra ≤ INT_MAX := by
  unfold copy_and_free new_array at h
  by_cases hneg : output.num_tetrahedra < 0
  · rw [if_pos hneg] at h
    cases h
  · rw [if_neg hneg] at h
    simp only at h
    split at h
    · cases h
    · rename_i n hn
      have := memcpy_count_eq_some hn
      exact ⟨by omega, by omega⟩

theorem copy_and_free_trace (env : Env D) (output : CDelaunayOutput D) (t : List (Event D)) :
    ∃ l, (copy_and_free env output t).trace = t ++ l ∧ compute_calls l = 0 ∧
      ∀ c n, Event.compute_delaunay_c c n ∉ l := by
  unfold copy_and_free
  split
  · exact ⟨_, rfl, rfl, by simp⟩
  · split
    · exact ⟨_, rfl, rfl, by simp⟩
    · split
      · exact ⟨_, rfl, rfl, by simp⟩
      · exact ⟨_, rfl, rfl, by simp⟩

theorem copy_and_free_not_error (env : Env D) (output : CDelaunayOutput D) (t : List (Event D))
    (w : String) : (copy_and_free env output t).outcome ≠ Outcome.runtime_error w := by
  unfold copy_and_free
  split
  · simp
  · split
    · simp
    · split <;> simp

theorem compute_calls_append (l1 l2 : List (Event D)) :
    compute_calls (l1 ++ l2) = compute_calls l1 + compute_calls l2 := by
  induction l1 with
  | nil => simp [compute_calls]
  | cons e l ih =>
    cases e <;> simp [compute_calls, ih, Nat.add_right_comm]

theorem free_calls_append (l1 l2 : List (Event D)) :
    free_calls (l1 ++ l2) = free_calls l1 + free_calls l2 := by
  induction l1 with
  | nil => simp [free_calls]
  | cons e l ih =>
    cases e <;> simp [free_calls, ih, Nat.add_right_comm]

/-- The three ways the engine call can go. -/
theorem call_engine_cases (env : Env D) (c : List (CPoint3 D)) (n : Int) :
    ((env.compute_delaunay_c c n).1 = 0 ∧
      call_engine env c n =
        ⟨Outcome.runtime_error triangulation_failed, [Event.compute_delaunay_c c n],
          some (env.compute_delaunay_c c n).2⟩) ∨
    ((env.compute_delaunay_c c n).1 ≠ 0 ∧ (env.compute_delaunay_c c n).2.success = 0 ∧
      call_engine env c n =
        ⟨Outcome.runtime_error triangulation_failed,
          [Event.compute_delaunay_c c n, Event.read Field.success],
          some (env.compute_delaunay_c c n).2⟩) ∨
    ((env.compute_delaunay_c c n).1 ≠ 0 ∧ (env.compute_delaunay_c c n).2.success ≠ 0 ∧
      call_engine env c n =
        copy_and_free env (env.compute_delaunay_c c n).2
          [Event.compute_delaunay_c c n, Event.read Field.success]) := by
  unfold call_engine
  by_cases h1 : (env.compute_delaunay_c c n).1 = 0
  · left
    simp [h1]
  · by_cases h2 : (env.compute_delaunay_c c n).2.success = 0
    · right; left
      simp [h1, h2]
    · right; right
      simp [h1, h2]

theorem call_engine_trace (env : Env D) (c : List (CPoint3 D)) (n : Int) :
    ∃ l, (call_engine env c n).trace = Event.compute_delaunay_c c n :: l ∧
      compute_calls l = 0 ∧ ∀ c1 n1, Event.compute_delaunay_c c1 n1 ∉ l := by
  rcases call_engine_cases env c n with ⟨-, h⟩ | ⟨-, -, h⟩ | ⟨-, -, h⟩
  · rw [h]
    exact ⟨[], rfl, rfl, by simp⟩
  · rw [h]
    exact ⟨_, rfl, rfl, by simp⟩
  · rw [h]
    obtain ⟨l, hl, hc, hm⟩ := copy_and_free_trace env (env.compute_delaunay_c c n).2
      [Event.compute_delaunay_c c n, Event.read Field.success]
    refine ⟨Event.read Field.success :: l, by rw [hl]; rfl, by simpa [compute_calls] using hc, ?_⟩
    intro c1 n1 hmem
    rcases List.mem_cons.1 hmem with h | h
    · cases h
    · exact hm c1 n1 h

theorem call_engine_returned {env : Env D} {c : List (CPoint3 D)} {n : Int} {a : array_t} {tm : D}
    (h : (call_engine env c n).outcome = Outcome.returned a tm) :
    (env.compute_delaunay_c c n).1 ≠ 0 ∧ (env.compute_delaunay_c c n).2.success ≠ 0 ∧
    0 ≤ (env.compute_delaunay_c c n).2.num_tetrahedra ∧
    4 * (env.compute_delaunay_c c n).2.num_tetrahedra ≤ INT_MAX ∧
    call_engine env c n =
      ⟨Outcome.returned (deep_copy (env.compute_delaunay_c c n).2)
          (env.compute_delaunay_c c n).2.total_time,
        [Event.compute_delaunay_c c n, Event.read Field.success] ++ copy_events,
        some (env.free_delaunay_output_c (env.compute_delaunay_c c n).2)⟩ := by
  rcases call_engine_cases env c n with ⟨-, h1⟩ | ⟨-, -, h1⟩ | ⟨hs, hf, h1⟩
  · rw [h1] at h
    cases h
  · rw [h1] at h
    cases h
  · rw [h1] at h
    obtain ⟨h0, h4⟩ := copy_and_free_returned h
    exact ⟨hs, hf, h0, h4, by rw [h1, copy_and_free_of_range env _ _ h0 h4]⟩

theorem shape_cases (l : List Int) :
    (∃ N, l = [N, 3]) ∨ ((l.length : Int) ≠ 2 ∨ l[1]? ≠ some 3) := by
  match l with
  | [] => right; left; simp
  | [_] => right; left; simp
  | [a, b] =>
    by_cases hb : b = 3
    · left; exact ⟨a, by rw [hb]⟩
    · right; right; simpa using hb
  | _ :: _ :: _ :: _ => right; left; simp; omega

theorem triangulate_not_shape (points : buffer_info D) (env : Env D)
    (h : ¬ ∃ N, points.shape = [N, 3]) :
    triangulate points env = ⟨Outcome.runtime_error invalid_shape, [], none⟩ := by
  unfold triangulate buffer_info.ndim
  rcases shape_cases points.shape with h1 | h1
  · exact absurd h1 h
  · rw [if_pos h1]

theorem triangulate_of_shape (points : buffer_info D) (env : Env D) {N : Int}
    (hs : points.shape = [N, 3]) :
    triangulate points env =
      match convert points.ptr (to_int N) with
      | Converted.length_error => ⟨Outcome.length_error, [], none⟩
      | Converted.undefined => ⟨Outcome.undefined, [], none⟩
      | Converted.ok c_points => call_engine env c_points (to_int N) := by
  unfold triangulate buffer_info.ndim
  simp [hs]

theorem triangulate_of_range (points : buffer_info D) (env : Env D) {N : Int}
    (hs : points.shape = [N, 3]) (h0 : 0 ≤ N) (h1 : 3 * N ≤ INT_MAX) :
    triangulate points env = call_engine env (flat_points points.ptr N) N := by
  have hN : to_int N = N := to_int_of_range (by unfold INT_MIN; omega) (by omega)
  rw [triangulate_of_shape points env hs, hN, convert_of_range points.ptr h0 h1]

/-- Either the engine is never reached, or the run is the engine call on the
flat points of the buffer. -/
theorem triangulate_cases (points : buffer_info D) (env : Env D) :
    ((triangulate points env).trace = [] ∧
      (∀ a tm, (triangulate points env).outcome ≠ Outcome.returned a tm) ∧
      (triangulate points env).outcome ≠ Outcome.runtime_error triangulation_failed) ∨
    (∃ N, points.shape = [N, 3] ∧ 0 ≤ to_int N ∧
      triangulate points env =
        call_engine env (flat_points points.ptr (to_int N)) (to_int N)) := by
  by_cases hs : ∃ N, points.shape = [N, 3]
  · obtain ⟨N, hN⟩ := hs
    have ht := triangulate_of_shape points env hN
    cases hc : convert points.ptr (to_int N) with
    | ok c =>
      right
      obtain ⟨h0, rfl⟩ := convert_eq_ok hc
      rw [hc] at ht
      exact ⟨N, hN, h0, ht⟩
    | length_error =>
      left
      rw [hc] at ht
      rw [ht]
      simp
    | undefined =>
      left
      rw [hc] at ht
      rw [ht]
      simp
  · left
    rw [triangulate_not_shape points env hs]
    refine ⟨rfl, by simp, ?_⟩
    simp [invalid_shape, triangulation_failed]

theorem call_engine_not_invalid (env : Env D) (c : List (CPoint3 D)) (n : Int) :
    (call_engine env c n).outcome ≠ Outcome.runtime_error invalid_shape := by
  rcases call_engine_cases env c n with ⟨-, h⟩ | ⟨-, -, h⟩ | ⟨-, -, h⟩
  · rw [h]
    simp [invalid_shape, triangulation_failed]
  · rw [h]
    simp [invalid_shape, triangulation_failed]
  · rw [h]
    exact copy_and_free_not_error _ _ _ _

theorem flat_points_length (ptr : Int → D) {n : Int} (h0 : 0 ≤ n) :
    ((flat_points ptr n).length : Int) = n := by
  simp [flat_points, Int.toNat_of_nonneg h0]

theorem flat_points_getElem (ptr : Int → D) (n : Int) (i : Nat)
    (hi : i < (flat_points ptr n).length) :
    (flat_points ptr n)[i]? = some (flat_point ptr (i : Int)) := by
  have hi2 : i < n.toNat := by simpa [flat_points] using hi
  simp [flat_points, List.getElem?_range hi2]

theorem mem_trace_call_engine {env : Env D} {c c1 : List (CPoint3 D)} {n n1 : Int}
    (h : Event.compute_delaunay_c c1 n1 ∈ (call_engine env c n).trace) : c1 = c ∧ n1 = n := by
  obtain ⟨l, hl, -, hm⟩ := call_engine_trace env c n
  rw [hl] at h
  rcases List.mem_cons.1 h with h | h
  · cases h
    exact ⟨rfl, rfl⟩
  · exact absurd h (hm c1 n1)

/-- Every call of the engine made by `triangulate` gets the flat points of
the buffer. -/
theorem mem_trace_triangulate {points : buffer_info D} {env : Env D} {c : List (CPoint3 D)}
    {n : Int} (h : Event.compute_delaunay_c c n ∈ (triangulate points env).trace) :
    c = flat_points points.ptr n ∧ 0 ≤ n ∧
      triangulate points env = call_engine env c n ∧
      ∃ N, points.shape = [N, 3] ∧ n = to_int N := by
  rcases triangulate_cases points env with ⟨ht, -, -⟩ | ⟨N, hN, h0, ht⟩
  · rw [ht] at h
    cases h
  · rw [ht] at h
    obtain ⟨rfl, rfl⟩ := mem_trace_call_engine h
    exact ⟨rfl, h0, ht, N, hN, rfl⟩

theorem flat_point_contiguous (points : buffer_info D) (hst : points.strides = [24, 8])
    (i : Int) : flat_point points.ptr i = ⟨points.at i 0, points.at i 1, points.at i 2⟩ := by
  have a0 : (i * 3 + 0) * sizeof_double = i * 24 + 0 * 8 := by simp only [sizeof_double]; ring
  have a1 : (i * 3 + 1) * sizeof_double = i * 24 + 1 * 8 := by simp only [sizeof_double]; ring
  have a2 : (i * 3 + 2) * sizeof_double = i * 24 + 2 * 8 := by simp only [sizeof_double]; ring
  simp only [flat_point, buffer_info.at, hst, List.getD_cons_zero, List.getD_cons_succ, a0, a1, a2]

theorem deep_copy_at (output : CDelaunayOutput D) (r c : Nat)
    (hr : (r : Int) < output.num_tetrahedra) (hc : c < 4) :
    (deep_copy output).at r c = some (output.tetrahedra (4 * r + c)) := by
  have hidx : ((r : Int) * 16 + (c : Int) * 4).toNat / sizeof_int = 4 * r + c := by
    have : ((r : Int) * 16 + (c : Int) * 4).toNat = (4 * r + c) * 4 := by omega
    rw [this]
    simp [sizeof_int]
  have hlt : 4 * r + c < output.num_tetrahedra.toNat * 4 := by omega
  simp only [array_t.at, deep_copy, List.getD_cons_zero, List.getD_cons_succ, hidx]
  simp [List.getElem?_range hlt]

theorem copy_and_free_outcome_free (env : Env D) (f : CDelaunayOutput D → CDelaunayOutput D)
    (output : CDelaunayOutput D) (t : List (Event D)) :
    (copy_and_free { env with free_delaunay_output_c := f } output t).outcome =
      (copy_and_free env output t).outcome := by
  unfold copy_and_free
  simp only
  split
  · rfl
  · split
    · rfl
    · split <;> rfl

theorem triangulate_outcome_free (points : buffer_info D) (env : Env D)
    (f : CDelaunayOutput D → CDelaunayOutput D) :
    (triangulate points { env with free_delaunay_output_c := f }).outcome =
      (triangulate points env).outcome := by
  unfold triangulate
  split
  · rfl
  · simp only
    split
    · rfl
    · rfl
    · unfold call_engine
      simp only
      split
      · rfl
      · split
        · rfl
        · exact copy_and_free_outcome_free env f _ _

theorem read_point_some_range {ptr : Int → D} {i : Int} {p : CPoint3 D}
    (h : read_point ptr i = some p) : i * 3 + 2 ≤ INT_MAX := by
  unfold read_point at h
  split at h
  · cases h
  · rename_i i3 h3
    obtain ⟨rfl, -, -⟩ := int_arith_eq_some h3
    split at h
    · rename_i o0 o1 o2 h0 h1 h2
      exact (int_arith_eq_some h2).2.2
    · cases h

theorem fill_points_overflow (ptr : Int → D) :
    ∀ (n : Nat) (i : Int), 0 < n → INT_MAX < (i + (n : Int) - 1) * 3 + 2 →
      fill_points ptr n i = none
  | 0, _, hn, _ => absurd hn (lt_irrefl 0)
  | n + 1, i, _, h => by
    unfold fill_points
    cases hr : read_point ptr i with
    | none => rfl
    | some p =>
      have hi := read_point_some_range hr
      have hn : 0 < n := by
        rcases Nat.eq_zero_or_pos n with h0 | h0
        · subst h0
          simp only [Nat.zero_add, Nat.cast_one] at h
          omega
        · exact h0
      rw [fill_points_overflow ptr n (i + 1) hn (by push_cast at h; omega)]

/-- With more rows than a third of `INT_MAX` the index arithmetic of the
conversion loop leaves the range of `int` before the engine is reached. -/
theorem triangulate_index_overflow (points : buffer_info D) (env : Env D) {N : Int}
    (hs : points.shape = [N, 3]) (h1 : N ≤ INT_MAX) (h3 : INT_MAX < 3 * N) :
    triangulate points env = ⟨Outcome.undefined, [], none⟩ := by
  have hN : to_int N = N := to_int_of_range (by unfold INT_MIN; unfold INT_MAX at h3; omega) h1
  have hpos : 0 ≤ N := by unfold INT_MAX at h3; omega
  have h0 : 0 < N.toNat := by unfold INT_MAX at h3; omega
  have hf := fill_points_overflow points.ptr N.toNat 0 h0 (by
    rw [Int.toNat_of_nonneg hpos]; unfold INT_MAX at h3 ⊢; omega)
  rw [triangulate_of_shape points env hs, hN]
  unfold convert
  rw [if_neg (by omega), hf]

theorem free_calls_copy_and_free (env : Env D) (output : CDelaunayOutput D) (t : List (Event D)) :
    free_calls (copy_and_free env output t).trace =
      free_calls t +
        (match (copy_and_free env output t).outcome with
          | Outcome.returned _ _ => 1
          | _ => 0) := by
  unfold copy_and_free
  split
  · simp [free_calls_append, free_calls]
  · split
    · simp [free_calls_append, free_calls]
    · split
      · simp [free_calls_append, free_calls]
      · simp [free_calls_append, free_calls]

/-- In every run the release is called once when `triangulate` returns and
not at all otherwise. -/
theorem free_calls_triangulate (points : buffer_info D) (env : Env D) :
    free_calls (triangulate points env).trace =
      (match (triangulate points env).outcome with
        | Outcome.returned _ _ => 1
        | _ => 0) := by
  rcases triangulate_cases points env with ⟨ht, hn, -⟩ | ⟨N, -, -, ht⟩
  · rw [ht]
    cases ho : (triangulate points env).outcome with
    | returned a tm => exact absurd ho (hn a tm)
    | _ => rfl
  · rw [ht]
    rcases call_engine_cases env (flat_points points.ptr (to_int N)) (to_int N) with
      ⟨-, h⟩ | ⟨-, -, h⟩ | ⟨-, -, h⟩
    · rw [h]
      rfl
    · rw [h]
      rfl
    · rw [h, free_calls_copy_and_free]
      simp [free_calls]

/-! ## The claims -/

/-- C1: a buffer whose shape is not `(N, 3)` (any number of dimensions other
than 2, or a second dimension other than 3) makes `triangulate` throw the
invalid-shape error with no call of `compute_delaunay_c` and no call of
`free_delaunay_output_c`; a buffer of shape `(N, 3)` never gets that error. -/
theorem C1_invalid_shape (points : buffer_info D) (env : Env D) :
    ((¬ ∃ N, points.shape = [N, 3]) →
      (triangulate points env).outcome = Outcome.runtime_error invalid_shape ∧
      invalid_shape = "Points array must be of shape (n, 3)" ∧
      compute_calls (triangulate points env).trace = 0 ∧
      free_calls (triangulate points env).trace = 0) ∧
    ((∃ N, points.shape = [N, 3]) →
      (triangulate points env).outcome ≠ Outcome.runtime_error invalid_shape) := by
  constructor
  · intro h
    rw [triangulate_not_shape points env h]
    exact ⟨rfl, rfl, rfl, rfl⟩
  · rintro ⟨N, hN⟩
    rw [triangulate_of_shape points env hN]
    split
    · simp
    · simp
    · exact call_engine_not_invalid _ _ _

/-- C1 at concrete buffers: a 0-D buffer, a 1-D buffer, shapes `(5, 2)` and
`(5, 3, 1)` are rejected without any native call, shape `(2, 3)` is not
rejected. -/
theorem C1_invalid_shape_witness :
    (¬ ∃ N, ([] : List Int) = [N, 3]) ∧ (¬ ∃ N, ([5] : List Int) = [N, 3]) ∧
    (¬ ∃ N, ([5, 2] : List Int) = [N, 3]) ∧ (¬ ∃ N, ([5, 3, 1] : List Int) = [N, 3]) ∧
    (triangulate ⟨demo_ptr, [], []⟩ demo_env).outcome = Outcome.runtime_error invalid_shape ∧
    (triangulate ⟨demo_ptr, [5], [8]⟩ demo_env).outcome = Outcome.runtime_error invalid_shape ∧
    (triangulate ⟨demo_ptr, [5, 2], [16, 8]⟩ demo_env).trace = [] ∧
    (triangulate ⟨demo_ptr, [5, 3, 1], [24, 8, 8]⟩ demo_env).trace = [] ∧
    (triangulate ⟨demo_ptr, [2, 3], [24, 8]⟩ demo_env).outcome ≠
      Outcome.runtime_error invalid_shape :=
  ⟨by simp, by simp, by simp, by simp,
    ((C1_invalid_shape ⟨demo_ptr, [], []⟩ demo_env).1 (by simp)).1,
    ((C1_invalid_shape ⟨demo_ptr, [5], [8]⟩ demo_env).1 (by simp)).1,
    by rfl, by rfl,
    (C1_invalid_shape ⟨demo_ptr, [2, 3], [24, 8]⟩ demo_env).2 ⟨2, rfl⟩⟩

/-- C2, as amended: for a buffer of shape `(N, 3)` with `0 ≤ N` and `3 * N` in
the range of `int`, and the engine answering the call with `(status, output)`:
`triangulate` throws the triangulation-failed error exactly when `status` is
0 or `output.success` is 0, nothing is returned in that case, and when both are
non-zero and the reported count `M` has `0 ≤ M` and `4 * M` in the range of
`int`, `triangulate` returns. -/
theorem C2_failure_signals (points : buffer_info D) (env : Env D) (N status : Int)
    (output : CDelaunayOutput D)
    (hs : points.shape = [N, 3]) (h0 : 0 ≤ N) (h1 : 3 * N ≤ INT_MAX)
    (hr : ∀ pts n, Event.compute_delaunay_c pts n ∈ (triangulate points env).trace →
      env.compute_delaunay_c pts n = (status, output)) :
    ((triangulate points env).outcome = Outcome.runtime_error triangulation_failed ↔
      (status = 0 ∨ output.success = 0)) ∧
    (status = 0 ∨ output.success = 0 →
      ∀ a tm, (triangulate points env).outcome ≠ Outcome.returned a tm) ∧
    (status ≠ 0 → output.success ≠ 0 → 0 ≤ output.num_tetrahedra →
      4 * output.num_tetrahedra ≤ INT_MAX →
      ∃ a tm, (triangulate points env).outcome = Outcome.returned a tm) := by
  have ht := triangulate_of_range points env hs h0 h1
  rw [ht] at hr ⊢
  obtain ⟨l, hl, -, -⟩ := call_engine_trace env (flat_points points.ptr N) N
  have hresp := hr _ _ (by rw [hl]; exact List.mem_cons_self _ _)
  rcases call_engine_cases env (flat_points points.ptr N) N with
    ⟨h, hrun⟩ | ⟨h, hf, hrun⟩ | ⟨h, hf, hrun⟩
  · rw [hresp] at h
    simp only at h
    rw [hrun]
    simp [h]
  · rw [hresp] at h hf
    simp only at h hf
    rw [hrun]
    simp [hf]
  · rw [hresp] at h hf hrun
    simp only at h hf hrun
    rw [hrun]
    refine ⟨?_, ?_, ?_⟩
    · constructor
      · intro hc
        exact absurd hc (copy_and_free_not_error _ _ _ _)
      · rintro (h2 | h2)
        · exact absurd h2 h
        · exact absurd h2 hf
    · rintro (h2 | h2)
      · exact absurd h2 h
      · exact absurd h2 hf
    · intro _ _ hM h4
      rw [copy_and_free_of_range env output _ hM h4]
      exact ⟨_, _, rfl⟩

/-- C2 as stated fails.  A buffer of shape `(2147483648, 3)` ends in the
length error of the vector constructor, not in the triangulation-failed error,
although the engine would answer with call status 0.  For a buffer of two
rows, an engine answering with both signals non-zero and the count `-1` makes
`triangulate` end in the exception of the array constructor instead of
returning, and one answering with both signals non-zero and the count
`536870912` makes the `int` product `num_tetrahedra * 4` leave the range of
`int`. -/
theorem C2_counterexample :
    ((triangulate ⟨demo_ptr, [2147483648, 3], [24, 8]⟩ status_env).outcome =
        Outcome.length_error ∧
      ∀ pts n, (status_env.compute_delaunay_c pts n).1 = 0) ∧
    ((triangulate ⟨demo_ptr, [2, 3], [24, 8]⟩ negative_env).outcome =
        Outcome.error_already_set ∧
      ∀ pts n, (negative_env.compute_delaunay_c pts n).1 ≠ 0 ∧
        (negative_env.compute_delaunay_c pts n).2.success ≠ 0) ∧
    ((triangulate ⟨demo_ptr, [2, 3], [24, 8]⟩ big_env).outcome = Outcome.undefined ∧
      ∀ pts n, (big_env.compute_delaunay_c pts n).1 ≠ 0 ∧
        (big_env.compute_delaunay_c pts n).2.success ≠ 0) := by
  refine ⟨⟨by decide, fun _ _ => rfl⟩, ⟨by decide, fun _ _ => by simp [negative_env]⟩,
    ⟨by decide, fun _ _ => by simp [big_env]⟩⟩

/-- C2, as amended, at a buffer of two rows: an engine answering with both
signals non-zero and two tetrahedra gives a result, an engine answering with
call status 0 gives the triangulation-failed error. -/
theorem C2_failure_signals_witness :
    (∃ a tm, (triangulate ⟨demo_ptr, [2, 3], [24, 8]⟩ demo_env).outcome =
      Outcome.returned a tm) ∧
    (triangulate ⟨demo_ptr, [2, 3], [24, 8]⟩ status_env).outcome =
      Outcome.runtime_error triangulation_failed :=
  ⟨(C2_failure_signals ⟨demo_ptr, [2, 3], [24, 8]⟩ demo_env 2 1 demo_output rfl
      (by decide) (by decide) (fun _ _ _ => rfl)).2.2
      (by decide) (by decide) (by decide) (by decide),
    (C2_failure_signals ⟨demo_ptr, [2, 3], [24, 8]⟩ status_env 2 0 demo_output rfl
      (by decide) (by decide) (fun _ _ _ => rfl)).1.2 (Or.inl rfl)⟩

/-- C3 fails on both failure paths: with the success flag of the descriptor
at 0, and with the call status at 0, `triangulate` throws the
triangulation-failed error after one call of `compute_delaunay_c` and no call
of `free_delaunay_output_c`; on the returning path there is one call of
each. -/
theorem C3_no_release_on_failure :
    ((triangulate ⟨demo_ptr, [1, 3], [24, 8]⟩ flag_env).outcome =
        Outcome.runtime_error triangulation_failed ∧
      compute_calls (triangulate ⟨demo_ptr, [1, 3], [24, 8]⟩ flag_env).trace = 1 ∧
      free_calls (triangulate ⟨demo_ptr, [1, 3], [24, 8]⟩ flag_env).trace = 0) ∧
    ((triangulate ⟨demo_ptr, [1, 3], [24, 8]⟩ status_env).outcome =
        Outcome.runtime_error triangulation_failed ∧
      compute_calls (triangulate ⟨demo_ptr, [1, 3], [24, 8]⟩ status_env).trace = 1 ∧
      free_calls (triangulate ⟨demo_ptr, [1, 3], [24, 8]⟩ status_env).trace = 0) ∧
    (compute_calls (triangulate ⟨demo_ptr, [1, 3], [24, 8]⟩ demo_env).trace = 1 ∧
      free_calls (triangulate ⟨demo_ptr, [1, 3], [24, 8]⟩ demo_env).trace = 1) := by
  refine ⟨⟨by decide, by decide, by decide⟩, ⟨by decide, by decide, by decide⟩,
    ⟨by decide, by decide⟩⟩

/-- C4: for a buffer of shape `(N, 3)` with `3 * N` in the range of `int` and
flat data `d` behind the base pointer, the engine is handed exactly `N` points
and the `i`-th one is `(d[3i], d[3i+1], d[3i+2])`.  The strides play no part,
so this holds in particular for the row-major contiguous buffers. -/
theorem C4_points_passed (points : buffer_info D) (env : Env D) (N : Int) (d : Nat → D)
    (hs : points.shape = [N, 3]) (h0 : 0 ≤ N) (h1 : 3 * N ≤ INT_MAX)
    (hd : ∀ j : Nat, (j : Int) < 3 * N → points.ptr (8 * (j : Int)) = d j) :
    ∃ pts, (triangulate points env).trace.head? = some (Event.compute_delaunay_c pts N) ∧
      (pts.length : Int) = N ∧
      ∀ i : Nat, (i : Int) < N → pts[i]? = some ⟨d (3 * i), d (3 * i + 1), d (3 * i + 2)⟩ := by
  refine ⟨flat_points points.ptr N, ?_, flat_points_length _ h0, ?_⟩
  · rw [triangulate_of_range points env hs h0 h1]
    obtain ⟨l, hl, -, -⟩ := call_engine_trace env (flat_points points.ptr N) N
    rw [hl]
    rfl
  · intro i hi
    have hlen : i < (flat_points points.ptr N).length := by
      have := flat_points_length points.ptr h0
      omega
    rw [flat_points_getElem _ _ _ hlen]
    have e0 := hd (3 * i) (by push_cast; omega)
    have e1 := hd (3 * i + 1) (by push_cast; omega)
    have e2 := hd (3 * i + 2) (by push_cast; omega)
    have a0 : ((i : Int) * 3 + 0) * sizeof_double = 8 * ((3 * i : Nat) : Int) := by
      simp only [sizeof_double]; push_cast; ring
    have a1 : ((i : Int) * 3 + 1) * sizeof_double = 8 * ((3 * i + 1 : Nat) : Int) := by
      simp only [sizeof_double]; push_cast; ring
    have a2 : ((i : Int) * 3 + 2) * sizeof_double = 8 * ((3 * i + 2 : Nat) : Int) := by
      simp only [sizeof_double]; push_cast; ring
    simp only [flat_point, a0, a1, a2, e0, e1, e2]

/-- C4 at a concrete buffer: two rows holding the doubles `0 .. 5`. -/
theorem C4_points_passed_witness :
    ∃ pts, (triangulate ⟨demo_ptr, [2, 3], [24, 8]⟩ demo_env).trace.head? =
        some (Event.compute_delaunay_c pts 2) ∧
      (pts.length : Int) = 2 ∧
      ∀ i : Nat, (i : Int) < 2 →
        pts[i]? = some ⟨((3 * i : Nat) : Int), ((3 * i + 1 : Nat) : Int), ((3 * i + 2 : Nat) : Int)⟩ :=
  C4_points_passed ⟨demo_ptr, [2, 3], [24, 8]⟩ demo_env 2 (fun j => (j : Int)) rfl
    (by decide) (by decide) (by intro j _; simp [demo_ptr])

/-- C5, as amended: for a buffer of shape `(N, 3)` with `0 ≤ N` and `3 * N` in
the range of `int`, and the engine answering the call with non-zero status,
non-zero success flag and a count `M` with `0 ≤ M` and `4 * M` in the range of
`int`, `triangulate` returns a matrix of shape `(M, 4)` holding `4 * M`
elements whose entry `[r, c]` is element `4 * r + c` of the native buffer,
together with the `total_time` of the descriptor. -/
theorem C5_copy (points : buffer_info D) (env : Env D) (N status : Int)
    (output : CDelaunayOutput D)
    (hs : points.shape = [N, 3]) (h0 : 0 ≤ N) (h1 : 3 * N ≤ INT_MAX)
    (hr : ∀ pts n, Event.compute_delaunay_c pts n ∈ (triangulate points env).trace →
      env.compute_delaunay_c pts n = (status, output))
    (hstatus : status ≠ 0) (hflag : output.success ≠ 0)
    (hM : 0 ≤ output.num_tetrahedra) (h4 : 4 * output.num_tetrahedra ≤ INT_MAX) :
    ∃ a, (triangulate points env).outcome = Outcome.returned a output.total_time ∧
      a.shape = [output.num_tetrahedra, 4] ∧
      (a.data.length : Int) = 4 * output.num_tetrahedra ∧
      ∀ r c : Nat, (r : Int) < output.num_tetrahedra → c < 4 →
        a.at r c = some (output.tetrahedra (4 * r + c)) := by
  have ht := triangulate_of_range points env hs h0 h1
  rw [ht] at hr ⊢
  obtain ⟨l, hl, -, -⟩ := call_engine_trace env (flat_points points.ptr N) N
  have hresp := hr _ _ (by rw [hl]; exact List.mem_cons_self _ _)
  rcases call_engine_cases env (flat_points points.ptr N) N with
    ⟨h, -⟩ | ⟨-, hf, -⟩ | ⟨-, -, hrun⟩
  · rw [hresp] at h
    exact absurd h hstatus
  · rw [hresp] at hf
    exact absurd hf hflag
  · rw [hresp] at hrun
    simp only at hrun
    rw [hrun, copy_and_free_of_range env output _ hM h4]
    refine ⟨deep_copy output, rfl, rfl, ?_, fun r c hr hc => deep_copy_at output r c hr hc⟩
    simp only [deep_copy, List.length_map, List.length_range]
    omega

/-- C5 as stated fails.  A buffer of shape `(2147483648, 3)` ends in the length
error of the vector constructor although the engine would answer with success
and two tetrahedra; and for a buffer of two rows, an engine answering with
success and the count `536870912` makes the `int` product
`num_tetrahedra * 4` leave the range of `int`, so no matrix is returned. -/
theorem C5_counterexample :
    ((triangulate ⟨demo_ptr, [2147483648, 3], [24, 8]⟩ demo_env).outcome =
        Outcome.length_error ∧
      ∀ pts n, (demo_env.compute_delaunay_c pts n).1 ≠ 0 ∧
        (demo_env.compute_delaunay_c pts n).2.success ≠ 0 ∧
        0 ≤ (demo_env.compute_delaunay_c pts n).2.num_tetrahedra) ∧
    ((triangulate ⟨demo_ptr, [2, 3], [24, 8]⟩ big_env).outcome = Outcome.undefined ∧
      ∀ pts n, (big_env.compute_delaunay_c pts n).1 ≠ 0 ∧
        (big_env.compute_delaunay_c pts n).2.success ≠ 0 ∧
        0 ≤ (big_env.compute_delaunay_c pts n).2.num_tetrahedra) := by
  refine ⟨⟨by decide, fun _ _ => by simp [demo_env, demo_output]⟩,
    ⟨by decide, fun _ _ => by simp [big_env]⟩⟩

/-- C5, as amended, at a buffer of two rows and an engine reporting two
tetrahedra with the buffer `0 1 2 3 0 1 2 3` and the time `7`. -/
theorem C5_copy_witness :
    ∃ a, (triangulate ⟨demo_ptr, [2, 3], [24, 8]⟩ demo_env).outcome =
        Outcome.returned a demo_output.total_time ∧
      a.shape = [demo_output.num_tetrahedra, 4] ∧
      (a.data.length : Int) = 4 * demo_output.num_tetrahedra ∧
      ∀ r c : Nat, (r : Int) < demo_output.num_tetrahedra → c < 4 →
        a.at r c = some (demo_output.tetrahedra (4 * r + c)) :=
  C5_copy ⟨demo_ptr, [2, 3], [24, 8]⟩ demo_env 2 1 demo_output rfl (by decide) (by decide)
    (fun _ _ _ => rfl) (by decide) (by decide) (by decide) (by decide)

/-- C6, as amended: for a buffer of shape `(N, 3)` and an engine whose answer
lists only row indices of the buffer (each of the first `4 * M` elements of its
buffer is in `[0, N)`), every entry of a returned matrix is in `[0, N)`, and
for `N = 0` a returned matrix has zero rows. -/
theorem C6_indices (points : buffer_info D) (env : Env D) (N : Int) (a : array_t) (tm : D)
    (hs : points.shape = [N, 3])
    (hv : ∀ pts n, Event.compute_delaunay_c pts n ∈ (triangulate points env).trace →
      ∀ k : Nat, (k : Int) < 4 * (env.compute_delaunay_c pts n).2.num_tetrahedra →
        0 ≤ (env.compute_delaunay_c pts n).2.tetrahedra k ∧
        (env.compute_delaunay_c pts n).2.tetrahedra k < N)
    (hret : (triangulate points env).outcome = Outcome.returned a tm) :
    (∀ v ∈ a.data, 0 ≤ v ∧ v < N) ∧ (N = 0 → a.shape = [0, 4] ∧ a.data = []) := by
  rcases triangulate_cases points env with ⟨-, hn, -⟩ | ⟨N1, hN1, -, ht⟩
  · exact absurd hret (hn a tm)
  · have hN : N1 = N := by
      rw [hs] at hN1
      simpa using hN1.symm
    subst hN
    rw [ht] at hret hv
    obtain ⟨-, -, hM, -, hrun⟩ := call_engine_returned hret
    rw [hrun] at hret hv
    have hv1 := hv _ _ (List.mem_cons_self _ _)
    simp only [Outcome.returned.injEq] at hret
    obtain ⟨ha, -⟩ := hret
    subst ha
    constructor
    · intro v hmem
      simp only [deep_copy, List.mem_map, List.mem_range] at hmem
      obtain ⟨k, hk, rfl⟩ := hmem
      exact hv1 k (by omega)
    · intro hN0
      have hz : (env.compute_delaunay_c (flat_points points.ptr (to_int N1)) (to_int N1)).2.num_tetrahedra
          = 0 := by
        by_contra hne
        have := hv1 0 (by omega)
        omega
      simp [deep_copy, hz]

/-- C6 as stated fails: for a buffer of one row and an engine reporting one
tetrahedron `5 5 5 5`, the returned matrix holds the index `5`; for the empty
buffer of shape `(0, 3)` and the same engine, the returned matrix has one
row. -/
theorem C6_counterexample :
    (triangulate ⟨demo_ptr, [1, 3], [24, 8]⟩ stray_env).outcome =
      Outcome.returned ⟨[1, 4], [16, 4], [5, 5, 5, 5]⟩ 0 ∧
    (triangulate ⟨demo_ptr, [0, 3], [24, 8]⟩ stray_env).outcome =
      Outcome.returned ⟨[1, 4], [16, 4], [5, 5, 5, 5]⟩ 0 ∧
    ¬ ((5 : Int) < 1) := by
  refine ⟨by decide, by decide, by decide⟩

/-- C6, as amended, at a buffer of four rows and an engine reporting two
tetrahedra over the indices `0 .. 3`. -/
theorem C6_indices_witness :
    (triangulate ⟨demo_ptr, [4, 3], [24, 8]⟩ demo_env).outcome =
      Outcome.returned ⟨[2, 4], [16, 4], [0, 1, 2, 3, 0, 1, 2, 3]⟩ 7 ∧
    ((∀ v ∈ ([0, 1, 2, 3, 0, 1, 2, 3] : List Int), 0 ≤ v ∧ v < 4) ∧
      ((4 : Int) = 0 →
        ([2, 4] : List Int) = [0, 4] ∧ ([0, 1, 2, 3, 0, 1, 2, 3] : List Int) = [])) :=
  ⟨by decide,
    C6_indices ⟨demo_ptr, [4, 3], [24, 8]⟩ demo_env 4
      ⟨[2, 4], [16, 4], [0, 1, 2, 3, 0, 1, 2, 3]⟩ 7 rfl
      (by
        intro pts n _ k hk
        have hk2 : k < 8 := by
          simp only [demo_env, demo_output] at hk
          omega
        simp only [demo_env, demo_output]
        omega)
      (by decide)⟩

/-- C7, as amended: for a buffer of shape `(N, 3)` with `0 ≤ N` and `3 * N` in
the range of `int` (`N = 0` included), `compute_delaunay_c` is called exactly
once and its count argument is `N`. -/
theorem C7_count_passed (points : buffer_info D) (env : Env D) (N : Int)
    (hs : points.shape = [N, 3]) (h0 : 0 ≤ N) (h1 : 3 * N ≤ INT_MAX) :
    (∃ c, (triangulate points env).trace.head? = some (Event.compute_delaunay_c c N)) ∧
      compute_calls (triangulate points env).trace = 1 := by
  rw [triangulate_of_range points env hs h0 h1]
  obtain ⟨l, hl, hc, -⟩ := call_engine_trace env (flat_points points.ptr N) N
  rw [hl]
  exact ⟨⟨_, rfl⟩, by simp [compute_calls, hc]⟩

/-- C7 as stated fails: a buffer of shape `(4294967297, 3)` reaches the engine
with the count `1` and a single point; and for a buffer of shape
`(715827883, 3)` the index `i * 3` of the conversion loop leaves the range of
`int` and the engine is not reached. -/
theorem C7_counterexample :
    ((triangulate ⟨demo_ptr, [4294967297, 3], [24, 8]⟩ demo_env).trace.head? =
        some (Event.compute_delaunay_c [⟨0, 1, 2⟩] 1) ∧
      ¬ ∃ pts, (triangulate ⟨demo_ptr, [4294967297, 3], [24, 8]⟩ demo_env).trace.head? =
        some (Event.compute_delaunay_c pts 4294967297)) ∧
    ((triangulate ⟨demo_ptr, [715827883, 3], [24, 8]⟩ demo_env).outcome = Outcome.undefined ∧
      compute_calls (triangulate ⟨demo_ptr, [715827883, 3], [24, 8]⟩ demo_env).trace = 0) := by
  have h : (triangulate ⟨demo_ptr, [4294967297, 3], [24, 8]⟩ demo_env).trace.head? =
      some (Event.compute_delaunay_c [⟨0, 1, 2⟩] 1) := by decide
  have h2 := triangulate_index_overflow ⟨demo_ptr, [715827883, 3], [24, 8]⟩ demo_env rfl
    (by decide) (by decide)
  refine ⟨⟨h, ?_⟩, ?_⟩
  · rintro ⟨pts, hc⟩
    rw [h] at hc
    cases hc
  · rw [h2]
    exact ⟨rfl, rfl⟩

/-- C7, as amended, at the empty buffer of shape `(0, 3)`. -/
theorem C7_count_passed_witness :
    (∃ c, (triangulate ⟨demo_ptr, [0, 3], [24, 8]⟩ demo_env).trace.head? =
        some (Event.compute_delaunay_c c 0)) ∧
      compute_calls (triangulate ⟨demo_ptr, [0, 3], [24, 8]⟩ demo_env).trace = 1 :=
  C7_count_passed ⟨demo_ptr, [0, 3], [24, 8]⟩ demo_env 0 rfl (by decide) (by decide)

/-- C8, as amended: for a buffer of shape `(N, 3)` with `0 ≤ N` and `3 * N` in
the range of `int`, and the engine answering the call with non-zero status,
non-zero success flag and a count `M` with `0 ≤ M` and `4 * M` in the range of
`int`, the native effects are, in this order, one call of
`compute_delaunay_c`, the reads of the descriptor and of its buffer, then one
call of `free_delaunay_output_c`, with nothing after it, and `triangulate`
returns.  The returned matrix and time are the contents of the descriptor as
the engine left them, the descriptor being handed to the release only
afterwards, and they are the same whatever the release function does. -/
theorem C8_order (points : buffer_info D) (env : Env D) (N status : Int)
    (output : CDelaunayOutput D)
    (hs : points.shape = [N, 3]) (h0 : 0 ≤ N) (h1 : 3 * N ≤ INT_MAX)
    (hr : ∀ pts n, Event.compute_delaunay_c pts n ∈ (triangulate points env).trace →
      env.compute_delaunay_c pts n = (status, output))
    (hstatus : status ≠ 0) (hflag : output.success ≠ 0)
    (hM : 0 ≤ output.num_tetrahedra) (h4 : 4 * output.num_tetrahedra ≤ INT_MAX) :
    (∃ pts, (triangulate points env).trace =
        [Event.compute_delaunay_c pts N, Event.read Field.success,
          Event.read Field.num_tetrahedra, Event.read Field.tetrahedra,
          Event.read Field.num_tetrahedra, Event.read Field.buffer,
          Event.read Field.total_time, Event.free_delaunay_output_c]) ∧
      compute_calls (triangulate points env).trace = 1 ∧
      free_calls (triangulate points env).trace = 1 ∧
      (triangulate points env).outcome =
        Outcome.returned (deep_copy output) output.total_time ∧
      (triangulate points env).output = some (env.free_delaunay_output_c output) ∧
      ∀ f, (triangulate points { env with free_delaunay_output_c := f }).outcome =
        Outcome.returned (deep_copy output) output.total_time := by
  have ht := triangulate_of_range points env hs h0 h1
  obtain ⟨l, hl, -, -⟩ := call_engine_trace env (flat_points points.ptr N) N
  have hresp := hr _ _ (by rw [ht, hl]; exact List.mem_cons_self _ _)
  have hrun : triangulate points env =
      ⟨Outcome.returned (deep_copy output) output.total_time,
        [Event.compute_delaunay_c (flat_points points.ptr N) N, Event.read Field.success] ++
          copy_events,
        some (env.free_delaunay_output_c output)⟩ := by
    rw [ht]
    rcases call_engine_cases env (flat_points points.ptr N) N with
      ⟨h, -⟩ | ⟨-, hf, -⟩ | ⟨-, -, hc⟩
    · rw [hresp] at h
      exact absurd h hstatus
    · rw [hresp] at hf
      exact absurd hf hflag
    · rw [hresp] at hc
      simp only at hc
      rw [hc, copy_and_free_of_range env output _ hM h4]
  refine ⟨⟨flat_points points.ptr N, ?_⟩, ?_, ?_, ?_, ?_, ?_⟩
  · rw [hrun]
    rfl
  · rw [hrun]
    rfl
  · rw [hrun]
    rfl
  · rw [hrun]
  · rw [hrun]
  · intro f
    rw [triangulate_outcome_free, hrun]

/-- C8 as stated fails.  For a buffer of two rows and an engine answering
with both signals non-zero and the count `-1`, the array constructor throws
after the read of `num_tetrahedra`: the release is never called and nothing is
returned; with the count `536870912` the `int` product `num_tetrahedra * 4`
leaves the range of `int` before the copy, again with no release.  For a
buffer of shape `(2147483648, 3)` the vector constructor throws before the
engine is called. -/
theorem C8_counterexample :
    ((⟨demo_ptr, [2, 3], [24, 8]⟩ : buffer_info Int).shape = [2, 3] ∧
      (∀ pts n, (negative_env.compute_delaunay_c pts n).1 ≠ 0 ∧
        (negative_env.compute_delaunay_c pts n).2.success ≠ 0) ∧
      (triangulate ⟨demo_ptr, [2, 3], [24, 8]⟩ negative_env).outcome =
        Outcome.error_already_set ∧
      (triangulate ⟨demo_ptr, [2, 3], [24, 8]⟩ negative_env).trace =
        [Event.compute_delaunay_c [⟨0, 1, 2⟩, ⟨3, 4, 5⟩] 2, Event.read Field.success,
          Event.read Field.num_tetrahedra] ∧
      free_calls (triangulate ⟨demo_ptr, [2, 3], [24, 8]⟩ negative_env).trace = 0) ∧
    ((∀ pts n, (big_env.compute_delaunay_c pts n).1 ≠ 0 ∧
        (big_env.compute_delaunay_c pts n).2.success ≠ 0) ∧
      (triangulate ⟨demo_ptr, [2, 3], [24, 8]⟩ big_env).outcome = Outcome.undefined ∧
      free_calls (triangulate ⟨demo_ptr, [2, 3], [24, 8]⟩ big_env).trace = 0) ∧
    ((triangulate ⟨demo_ptr, [2147483648, 3], [24, 8]⟩ demo_env).outcome =
        Outcome.length_error ∧
      (triangulate ⟨demo_ptr, [2147483648, 3], [24, 8]⟩ demo_env).trace = []) := by
  refine ⟨⟨rfl, fun _ _ => by simp [negative_env], by decide, by decide, by decide⟩,
    ⟨fun _ _ => by simp [big_env], by decide, by decide⟩, ⟨by decide, by decide⟩⟩

/-- C8, as amended, at a buffer of two rows, an engine reporting two
tetrahedra and a release that zeroes the descriptor and its buffer. -/
theorem C8_order_witness :
    (∃ pts, (triangulate ⟨demo_ptr, [2, 3], [24, 8]⟩ demo_env).trace =
        [Event.compute_delaunay_c pts 2, Event.read Field.success,
          Event.read Field.num_tetrahedra, Event.read Field.tetrahedra,
          Event.read Field.num_tetrahedra, Event.read Field.buffer,
          Event.read Field.total_time, Event.free_delaunay_output_c]) ∧
      compute_calls (triangulate ⟨demo_ptr, [2, 3], [24, 8]⟩ demo_env).trace = 1 ∧
      free_calls (triangulate ⟨demo_ptr, [2, 3], [24, 8]⟩ demo_env).trace = 1 ∧
      (triangulate ⟨demo_ptr, [2, 3], [24, 8]⟩ demo_env).outcome =
        Outcome.returned (deep_copy demo_output) demo_output.total_time ∧
      (triangulate ⟨demo_ptr, [2, 3], [24, 8]⟩ demo_env).output =
        some (demo_env.free_delaunay_output_c demo_output) ∧
      ∀ f, (triangulate ⟨demo_ptr, [2, 3], [24, 8]⟩
          { demo_env with free_delaunay_output_c := f }).outcome =
        Outcome.returned (deep_copy demo_output) demo_output.total_time :=
  C8_order ⟨demo_ptr, [2, 3], [24, 8]⟩ demo_env 2 1 demo_output rfl (by decide) (by decide)
    (fun _ _ _ => rfl) (by decide) (by decide) (by decide) (by decide)

/-- C9, as amended: the run of `triangulate` does not depend on the strides of
the buffer; point `i` handed to the engine is made of the doubles at flat
offsets `3 * i`, `3 * i + 1`, `3 * i + 2` from the base pointer; and when the
strides are those of a row-major contiguous array, `(24, 8)` bytes, it is row
`i` of the array. -/
theorem C9_flat_reads (points : buffer_info D) (env : Env D) :
    (∀ s, triangulate { points with strides := s } env = triangulate points env) ∧
    (∀ pts n, Event.compute_delaunay_c pts n ∈ (triangulate points env).trace →
      ∀ i : Nat, i < pts.length →
        pts[i]? = some ⟨points.ptr (((i : Int) * 3 + 0) * 8), points.ptr (((i : Int) * 3 + 1) * 8),
          points.ptr (((i : Int) * 3 + 2) * 8)⟩) ∧
    (points.strides = [24, 8] →
      ∀ pts n, Event.compute_delaunay_c pts n ∈ (triangulate points env).trace →
        ∀ i : Nat, i < pts.length →
          pts[i]? = some ⟨points.at i 0, points.at i 1, points.at i 2⟩) := by
  refine ⟨fun s => rfl, ?_, ?_⟩
  · intro pts n hmem i hi
    obtain ⟨rfl, -, -, -⟩ := mem_trace_triangulate hmem
    rw [flat_points_getElem _ _ _ hi]
    rfl
  · intro hst pts n hmem i hi
    obtain ⟨rfl, -, -, -⟩ := mem_trace_triangulate hmem
    rw [flat_points_getElem _ _ _ hi, flat_point_contiguous points hst]

/-- C9 as stated fails: for the transposed view of a contiguous `(3, 2)` array
holding `0 .. 5` (shape `(2, 3)`, strides `(8, 16)`), row 0 of the array is
`(0, 2, 4)` but the first point handed to the engine is `(0, 1, 2)`. -/
theorem C9_counterexample :
    (triangulate ⟨demo_ptr, [2, 3], [8, 16]⟩ demo_env).trace.head? =
      some (Event.compute_delaunay_c [⟨0, 1, 2⟩, ⟨3, 4, 5⟩] 2) ∧
    (⟨(⟨demo_ptr, [2, 3], [8, 16]⟩ : buffer_info Int).at 0 0,
      (⟨demo_ptr, [2, 3], [8, 16]⟩ : buffer_info Int).at 0 1,
      (⟨demo_ptr, [2, 3], [8, 16]⟩ : buffer_info Int).at 0 2⟩ : CPoint3 Int) = ⟨0, 2, 4⟩ ∧
    (⟨0, 2, 4⟩ : CPoint3 Int) ≠ ⟨0, 1, 2⟩ := by
  refine ⟨by decide, by decide, by decide⟩

/-- C9, as amended, at a contiguous buffer of two rows: the second point
handed to the engine is the second row. -/
theorem C9_flat_reads_witness :
    (⟨demo_ptr, [2, 3], [24, 8]⟩ : buffer_info Int).strides = [24, 8] ∧
    Event.compute_delaunay_c [⟨0, 1, 2⟩, ⟨3, 4, 5⟩] 2 ∈
      (triangulate ⟨demo_ptr, [2, 3], [24, 8]⟩ demo_env).trace ∧
    ([⟨0, 1, 2⟩, ⟨3, 4, 5⟩] : List (CPoint3 Int))[1]? =
      some ⟨(⟨demo_ptr, [2, 3], [24, 8]⟩ : buffer_info Int).at 1 0,
        (⟨demo_ptr, [2, 3], [24, 8]⟩ : buffer_info Int).at 1 1,
        (⟨demo_ptr, [2, 3], [24, 8]⟩ : buffer_info Int).at 1 2⟩ :=
  ⟨rfl, by decide,
    (C9_flat_reads ⟨demo_ptr, [2, 3], [24, 8]⟩ demo_env).2.2 rfl
      [⟨0, 1, 2⟩, ⟨3, 4, 5⟩] 2 (by decide) 1 (by decide)⟩

/-- C10 fails at the count `536870912`: the `int` product `num_tetrahedra * 4`
is `2147483648`, above `INT_MAX`, so the byte count of the copy is undefined
and `triangulate` has undefined behaviour; at `536870911` the byte count is
`16 * 536870911`. -/
theorem C10_count_overflow :
    int_arith (536870912 * 4) = none ∧
    memcpy_count 536870912 = none ∧
    (triangulate ⟨demo_ptr, [1, 3], [24, 8]⟩ big_env).outcome = Outcome.undefined ∧
    memcpy_count 536870911 = some (16 * 536870911) := by
  refine ⟨by decide, by decide, by decide, by decide⟩

end gDel3D
